import Mathlib

/-!
Shallow embedding of the LLAMA-16 two-pass assembler core (`asm/core.py`).

Source lines are modelled as lists of characters (without their trailing
newline, which the source's strip calls discard).  Python string helpers used
by the source (`lstrip`, `rstrip`, `strip`, `rpartition`, `partition`,
`lower`, `isdigit`, `isalnum`, `startswith`, `translate`, `int(...)`) are
reproduced over `List Char` for the ASCII inputs the assembler deals in.
Fatal `write_error` calls (`sys.exit(1)`) and uncaught Python exceptions are
both modelled as `Except.error` values that abort the run.
-/

namespace Llama16

abbrev Str := List Char

/-- Coerce a Lean string literal to the `List Char` representation. -/
def str (s : String) : Str := s.data

/-- Python whitespace for the default `strip` family (ASCII subset). -/
def pyIsSpace (c : Char) : Bool := c == ' ' || c == '\t' || c == '\n' || c == '\r'

def pyLstrip (s : Str) : Str := s.dropWhile pyIsSpace

def pyRstrip (s : Str) : Str := (s.reverse.dropWhile pyIsSpace).reverse

def pyStrip (s : Str) : Str := pyRstrip (pyLstrip s)

/-- Python `s.strip(q)` for a one-character set: removes every leading and
trailing occurrence of `q` (not just one). -/
def pyStripChar (q : Char) (s : Str) : Str :=
  ((s.dropWhile (· == q)).reverse.dropWhile (· == q)).reverse

/-- Python `s.rpartition(sep)` for a one-character separator.  Returns
`(before, found?, after)`; when the separator is absent Python returns
`('', '', s)`, i.e. `([], false, s)` here. -/
def pyRpartition (sep : Char) (s : Str) : Str × Bool × Str :=
  match s.reverse.findIdx? (· == sep) with
  | some i => ((s.reverse.drop (i + 1)).reverse, true, (s.reverse.take i).reverse)
  | none => ([], false, s)

/-- First index at which `needle` occurs as a contiguous sublist of `hay`. -/
def findSubAux (needle : Str) : Str → Nat → Option Nat
  | [], i => if needle = [] then some i else none
  | c :: rest, i =>
    if needle.isPrefixOf (c :: rest) then some i else findSubAux needle rest (i + 1)

def findSub (needle hay : Str) : Option Nat := findSubAux needle hay 0

/-- Python `s.partition(sep)`.  Returns `(before, found?, after)`; when the
separator is absent Python returns `(s, '', '')`. -/
def pyPartition (sep : Str) (s : Str) : Str × Bool × Str :=
  match findSub sep s with
  | some i => (s.take i, true, s.drop (i + sep.length))
  | none => (s, false, [])

def pyLower (s : Str) : Str := s.map Char.toLower

/-- Python `s.isdigit()` (ASCII digits; nonempty). -/
def pyIsdigitStr (s : Str) : Bool := !s.isEmpty && s.all Char.isDigit

/-- Python `s.isalnum()` (ASCII letters/digits; nonempty). -/
def pyIsalnum (s : Str) : Bool := !s.isEmpty && s.all Char.isAlphanum

def pyStartswith (c : Char) (s : Str) : Bool :=
  match s with
  | [] => false
  | d :: _ => d == c

def headIsDigit (s : Str) : Bool :=
  match s with
  | [] => false
  | d :: _ => d.isDigit

def digitsToNat (s : Str) : Nat := s.foldl (fun a c => a * 10 + (c.toNat - 48)) 0

/-- Python `int(s)` on an already-stripped token: optional sign followed by
decimal digits; `none` models the `ValueError` on anything else. -/
def pyIntOfStr (s : Str) : Option Int :=
  match s with
  | '-' :: rest => if pyIsdigitStr rest then some (-(Int.ofNat (digitsToNat rest))) else none
  | '+' :: rest => if pyIsdigitStr rest then some (Int.ofNat (digitsToNat rest)) else none
  | _ => if pyIsdigitStr s then some (Int.ofNat (digitsToNat s)) else none

/-- Python truthiness of a string. -/
def truthy (s : Str) : Bool := !s.isEmpty

/-- Fatal outcomes: `write_error` diagnostics (which `sys.exit(1)`) and the
uncaught Python exceptions the source can raise. -/
inductive AsmErr where
  | invalidLabel
  | unrecognizedMnemonic
  | invalidOperands
  | invalidOperand
  | invalidRegister
  | ioPortError
  | cannotReadIntoImmediate
  | missingDirectiveLabel
  | dataNotInteger
  | duplicateLabel
  | undefinedLabel
  | typeError
  | valueError
  | overflowError
  | keyError
  deriving Repr, DecidableEq

/-- The mutable fields of the `Assembler` object that the core pipeline
touches.  `output` is the accumulated byte image, `symbolTable` an
insertion-ordered association list. -/
structure AsmState where
  lineNumber : Nat
  passNumber : Nat
  address : Nat
  output : List Nat
  label : Str
  mnemonic : Str
  op1 : Str
  op1Type : Str
  op2 : Str
  op2Type : Str
  comment : Str
  symbolTable : List (Str × Nat)
  deriving Repr

abbrev M := Except AsmErr

def ORIGIN : Nat := 0x4000

def registers : List Str :=
  [str "a", str "b", str "c", str "d", str "ip", str "sp", str "bp"]

def tblMem (k : Str) (t : List (Str × Nat)) : Bool := t.any (·.1 == k)

def tblGet (k : Str) (t : List (Str × Nat)) : Option Nat := (t.find? (·.1 == k)).map (·.2)

/-- Python `int.to_bytes(2, 'little')` (unsigned): `OverflowError` outside `[0, 2^16)`. -/
def toBytesU2 (n : Nat) : M (List Nat) :=
  if n < 65536 then Except.ok [n % 256, n / 256] else Except.error AsmErr.overflowError

/-- Python `int.to_bytes(2, 'little', signed=True)`: `OverflowError` outside
`[-2^15, 2^15)`; otherwise the two's-complement little-endian bytes. -/
def toBytesS2 (n : Int) : M (List Nat) :=
  if -32768 ≤ n ∧ n ≤ 32767 then
    Except.ok [(Int.emod n 65536).toNat % 256, (Int.emod n 65536).toNat / 256]
  else Except.error AsmErr.overflowError

/-- Source `Assembler.add_label`. -/
def add_label (st : AsmState) : M AsmState :=
  let symbol := pyLower st.label
  if tblMem symbol st.symbolTable then Except.error AsmErr.duplicateLabel
  else Except.ok { st with symbolTable := st.symbolTable ++ [(symbol, st.address + ORIGIN)] }

/-- Source `Assembler.get_label`: membership is tested on the lower-cased name but
the value is fetched with the name as given (a `KeyError` if they differ). -/
def get_label (st : AsmState) (label : Str) : M Nat :=
  if tblMem (pyLower label) st.symbolTable then
    match tblGet label st.symbolTable with
    | some v => Except.ok v
    | none => Except.error AsmErr.keyError
  else Except.error AsmErr.undefinedLabel

/-- Source `Assembler.to_int`: returns an int for all-digit tokens; for tokens that
start with `-` it calls `int(val)`, which raises `ValueError` when the rest is
not numeric; otherwise `None`. -/
def to_int (val : Str) : M (Option Int) :=
  if pyIsdigitStr val then Except.ok (some (Int.ofNat (digitsToNat val)))
  else if pyStartswith '-' val then
    match pyIntOfStr val with
    | some n => Except.ok (some n)
    | none => Except.error AsmErr.valueError
  else Except.ok none

/-- Source `Assembler.pass_action`.  Note that the `self.output += output_byte`
append in the source sits outside the `if self.pass_number == 1:` block, so a
nonempty `output_byte` is appended on every pass. -/
def pass_action (st : AsmState) (size : Nat) (outputByte : List Nat) : M AsmState :=
  if outputByte = [] then Except.ok st
  else do
    let st ←
      if st.passNumber = 1 then do
        let align := size % 2
        let st ← if ¬ st.label = [] then add_label st else Except.ok st
        Except.ok { st with address := st.address + size / 2 + align }
      else Except.ok st
    Except.ok { st with output := st.output ++ outputByte }

/-- Source `Assembler.register_offset`. -/
def register_offset (regIn : Str) : M Nat :=
  let reg := pyLower regIn
  match registers.findIdx? (· == reg) with
  | some i => Except.ok i
  | none => Except.error AsmErr.invalidRegister

/-- Source `Assembler.verify_ops`. -/
def verify_ops (valid : Bool) : M Unit :=
  if valid then Except.ok () else Except.error AsmErr.invalidOperands

/-- Source `Assembler.encode_operand_types`.  The source matches the tuple
`(op1_type, num_ops)` (resp. `(op2_type, num_ops)`) against its case
patterns in order.  The arm `case "reg":` in the first match compares that
tuple against the bare string `"reg"`, which never succeeds, so it is
unreachable and has no branch here; a tuple that matches no arm falls out of
the match unchanged. -/
def encode_operand_types (st : AsmState) (opcode0 : Nat) (numOps : Nat) : M Nat := do
  let opcode := opcode0 <<< 12
  let opcode ←
    if numOps = 1 ∧ st.op1Type = str "imm" then Except.ok (opcode + (14 <<< 4))
    else if numOps = 1 ∧ (st.op1Type = str "mem_adr" ∨ st.op1Type = str "label") then
      Except.ok (opcode + (15 <<< 4))
    else if numOps = 1 ∧ st.op1Type = [] then Except.ok opcode
    else if numOps = 1 then Except.error AsmErr.invalidOperand
    else Except.ok opcode
  let opcode ←
    if numOps = 2 ∧ st.op2Type = str "reg" then do
      let off ← register_offset st.op2
      Except.ok (opcode + off)
    else if numOps = 2 ∧ (st.op2Type = str "mem_adr" ∨ st.op2Type = str "label") then
      Except.ok (opcode + (15 <<< 4))
    else if numOps = 2 ∧ st.op2Type = [] then Except.ok opcode
    else if numOps = 2 then Except.error AsmErr.invalidOperand
    else Except.ok opcode
  Except.ok opcode

/-- Resolution expression `self.to_int(op) or self.get_label(op)`: the `or`
falls through to the symbol-table lookup when `to_int` yields `None` or the
falsy integer `0`. -/
def resolveValue (st : AsmState) (op : Str) : M Int := do
  let v ← to_int op
  match v with
  | some n => if n = 0 then (get_label st op).map Int.ofNat else Except.ok n
  | none => (get_label st op).map Int.ofNat

/-- Source `Assembler.immediate_operand`. -/
def immediate_operand (st : AsmState) : M AsmState :=
  if ¬ (st.op1Type = str "imm" ∨ st.op1Type = str "label") ∨ st.passNumber = 1 then
    Except.ok st
  else do
    let st := { st with address := st.address + 1 }
    let number ← resolveValue st st.op1
    let bytes ← toBytesS2 number
    pass_action st 2 bytes

/-- One iteration of the loop in `Assembler.memory_address`.  After resolving
`number`, the source evaluates `int(number, 16)`; `number` is already an
`int`, and calling `int` with an explicit base on a non-string raises
`TypeError`, so the `pass_action` call after that line is unreachable. -/
def memStep (st : AsmState) (opTyp op : Str) : M AsmState :=
  if ¬ opTyp = str "mem_adr" then Except.ok st
  else do
    let _ ← resolveValue st op
    Except.error AsmErr.typeError

/-- Source `Assembler.memory_address`. -/
def memory_address (st : AsmState) : M AsmState :=
  if st.passNumber = 1 ∨ ¬ (st.op1Type = str "mem_adr" ∨ st.op2Type = str "mem_adr") then
    Except.ok st
  else do
    let st := { st with address := st.address + 1 }
    let st ← memStep st st.op1Type st.op1
    memStep st st.op2Type st.op2

/-- Common shape of the two-operand handlers `_mv`, `_add`, `_sub`, `_and`,
`_or`, `_not`, `_cmp`: verify both operands, encode, emit the opcode word,
then the trailing immediate and memory words. -/
def instr2 (opc : Nat) (st : AsmState) : M AsmState := do
  let _ ← verify_ops (truthy st.op1 && truthy st.op2)
  let opcode ← encode_operand_types st opc 2
  let bytes ← toBytesU2 opcode
  let st ← pass_action st 2 bytes
  let st ← immediate_operand st
  memory_address st

/-- Common shape of the one-operand handlers; `imm`/`mem` record whether the
source handler calls `immediate_operand` / `memory_address` afterwards
(`_push`: both; `_pop`: memory only; `_inc`, `_dec`: neither; `_call`,
`_jnz`: immediate only). -/
def instr1 (opc : Nat) (imm mem : Bool) (st : AsmState) : M AsmState :=
  verify_ops (truthy st.op1 && !truthy st.op2) >>= fun _ =>
  encode_operand_types st opc 1 >>= fun opcode =>
  toBytesU2 opcode >>= fun bytes =>
  pass_action st 2 bytes >>= fun st =>
  (if imm then immediate_operand st else Except.ok st) >>= fun st =>
  (if mem then memory_address st else Except.ok st)

def _mv : AsmState → M AsmState := instr2 0

/-- Source `Assembler._io`: rejects reading into an immediate, encodes only the
operand-1 type (`num_ops = 1`), then adds 1 for port `in` and 2 for `out`. -/
def _io (st : AsmState) : M AsmState :=
  verify_ops (truthy st.op1 && truthy st.op2) >>= fun _ =>
  (if st.op1Type = str "imm" ∧ st.op2 = str "in" then
      (Except.error AsmErr.cannotReadIntoImmediate : M Unit)
    else Except.ok ()) >>= fun _ =>
  encode_operand_types st 1 1 >>= fun opcode =>
  (if pyLower st.op2 = str "in" then Except.ok (opcode + 1)
   else if pyLower st.op2 = str "out" then Except.ok (opcode + 2)
   else Except.error AsmErr.ioPortError) >>= fun opcode =>
  toBytesU2 opcode >>= fun bytes =>
  pass_action st 2 bytes >>= fun st =>
  immediate_operand st >>= fun st =>
  memory_address st

def _push : AsmState → M AsmState := instr1 2 true true
def _pop : AsmState → M AsmState := instr1 3 false true
def _add : AsmState → M AsmState := instr2 4
def _sub : AsmState → M AsmState := instr2 5
def _inc : AsmState → M AsmState := instr1 6 false false
def _dec : AsmState → M AsmState := instr1 7 false false
def _and : AsmState → M AsmState := instr2 8
def _or : AsmState → M AsmState := instr2 9
def _not : AsmState → M AsmState := instr2 10
def _cmp : AsmState → M AsmState := instr2 11
def _call : AsmState → M AsmState := instr1 12 true false
def _jnz : AsmState → M AsmState := instr1 13 true false

/-- Source `Assembler._ret`: fixed bytes `b"\x00\xE0"`. -/
def _ret (st : AsmState) : M AsmState := do
  let _ ← verify_ops (!(truthy st.op1 || truthy st.op2))
  pass_action st 2 [0x00, 0xE0]

/-- Source `Assembler._hlt`: fixed bytes `b"\x00\xF0"`. -/
def _hlt (st : AsmState) : M AsmState := do
  let _ ← verify_ops (!(truthy st.op1 || truthy st.op2))
  pass_action st 2 [0x00, 0xF0]

/-- Source `Assembler.directive_data`: `int(op1)` under `try/except ValueError`;
an out-of-range value still raises the uncaught `OverflowError` from
`to_bytes`. -/
def directive_data (st : AsmState) : M AsmState :=
  if st.label = [] then Except.error AsmErr.missingDirectiveLabel
  else do
    let _ ← verify_ops (truthy st.op1 && !truthy st.op2)
    match pyIntOfStr st.op1 with
    | some data => do
      let bytes ← toBytesS2 data
      pass_action st 2 bytes
    | none => Except.error AsmErr.dataNotInteger

/-- UTF-8 encoding of one character (scalar values, as Python's `str`). -/
def utf8Bytes (c : Char) : List Nat :=
  let n := c.toNat
  if n < 128 then [n]
  else if n < 2048 then [192 + n / 64, 128 + n % 64]
  else if n < 65536 then [224 + n / 4096, 128 + n / 64 % 64, 128 + n % 64]
  else [240 + n / 262144, 128 + n / 4096 % 64, 128 + n / 64 % 64, 128 + n % 64]

def utf8Encode : Str → List Nat
  | [] => []
  | c :: rest => utf8Bytes c ++ utf8Encode rest

/-- Quote stripping step of `directive_string`: `op1.strip('\"').strip('\'')`
removes all leading and trailing quote characters, not just one layer. -/
def stripQuotes (s : Str) : Str := pyStripChar '\'' (pyStripChar '"' s)

/-- NUL padding step of `directive_string`: one NUL when the character length
is odd, two when it is even. -/
def padNul (s : Str) : Str :=
  if ¬ s.length % 2 = 0 then s ++ [Char.ofNat 0]
  else s ++ [Char.ofNat 0, Char.ofNat 0]

/-- Source `Assembler.directive_string`. -/
def directive_string (st : AsmState) : M AsmState :=
  if st.label = [] then Except.error AsmErr.missingDirectiveLabel
  else do
    let _ ← verify_ops (truthy st.op1 && !truthy st.op2)
    let string := stripQuotes st.op1
    let string := padNul string
    let data := utf8Encode string
    pass_action st data.length data

/-- The per-line token fields `parse` rebuilds from scratch. -/
structure Tokens where
  label : Str
  mnemonic : Str
  op1 : Str
  op1Type : Str
  op2 : Str
  op2Type : Str
  comment : Str
  deriving Repr

def emptyTokens : Tokens := ⟨[], [], [], [], [], [], []⟩

/-- Source `Assembler.parse_directive`: returns `(d_label, directive, d_args)`,
raising the fatal invalid-label error exactly as the source does. -/
def parse_directive (line : Str) : M (Str × Str × Str) :=
  let p1 := pyPartition (str ".data") line
  let (left1, sep1, right1, dType) :=
    if p1.2.1 then (p1.1, true, p1.2.2, str ".data")
    else
      let p2 := pyPartition (str ".string") line
      (p2.1, p2.2.1, p2.2.2, str ".string")
  if ¬ sep1 then Except.ok ([], [], [])
  else
    let dArgs := pyStrip right1
    let p3 := pyPartition (str ":") left1
    let (left2, sep2) := (p3.1, p3.2.1)
    if sep2 then
      let left2 := pyStrip left2
      if ¬ pyIsalnum left2 ∨ headIsDigit left2 then Except.error AsmErr.invalidLabel
      else Except.ok (left2, dType, dArgs)
    else if ¬ pyStrip left2 = [] then Except.error AsmErr.invalidLabel
    else Except.ok ([], dType, dArgs)

/-- The tokenization algorithm of `Assembler.parse`, as a function of the raw
line.  The directive branch does not return early in the source: the generic
right-to-left partitioning below it runs afterwards and may overwrite the
fields it set. -/
def tokenize (line : Str) : M Tokens := do
  let tk := emptyTokens
  let preprocess := (pyLstrip line).map fun c => if c = '\t' then ' ' else c
  let (commentLeftRaw, csep, commentRight) := pyRpartition ';' preprocess
  let (tk, commentLeft) :=
    if csep then ({ tk with comment := pyStrip commentRight }, commentLeftRaw)
    else (tk, pyRstrip commentRight)
  let (dLabel, directive, dArgs) ← parse_directive commentLeft
  let tk :=
    if ¬ directive = [] then
      { tk with
        label := pyLower dLabel, mnemonic := pyLower directive, op1 := pyLower dArgs,
        -- `directive.split('.')[0]` is the text before the first dot: `""`
        op1Type := directive.takeWhile (fun c => ¬ c = '.') }
    else tk
  let (tk, op2Left) :=
    let (l, sep, r) := pyRpartition ',' commentLeft
    if sep then ({ tk with op2 := pyStrip r }, l) else (tk, pyRstrip r)
  let (tk, op1Left) :=
    let (l, sep, r) := pyRpartition '\t' op2Left
    if sep then ({ tk with op1 := pyStrip r }, l)
    else
      let (l2, sep2, r2) := pyRpartition ' ' op2Left
      if sep2 then ({ tk with op1 := pyStrip r2 }, l2) else (tk, pyStrip r2)
  let tk :=
    let (l, sep, r) := pyRpartition ':' op1Left
    if sep then { tk with mnemonic := pyStrip r, label := pyStrip l }
    else { tk with mnemonic := pyStrip (pyRstrip r) }
  let tk :=
    if tk.mnemonic = [] ∧ ¬ tk.op1 = [] ∧ tk.op2 = [] then
      { tk with mnemonic := pyStrip tk.op1, op1 := [] }
    else tk
  let tk := { tk with op1 := pyLower tk.op1 }
  let tk :=
    if ¬ tk.op1 = [] then
      if pyStartswith '[' tk.op1 then
        { tk with op1Type := str "mem_adr", op1 := tk.op1.filter (fun c => !(c == '[' || c == ']')) }
      else if pyStartswith '#' tk.op1 then
        { tk with op1Type := str "imm", op1 := tk.op1.filter (fun c => !(c == '#')) }
      else if (registers.take 4).contains tk.op1 then { tk with op1Type := str "reg" }
      else { tk with op1Type := str "label", label := pyLower tk.label }
    else tk
  let tk := { tk with op2 := pyLower tk.op2 }
  let tk :=
    if ¬ tk.op2 = [] then
      if pyStartswith '[' tk.op2 then
        { tk with op2Type := str "mem_adr", op2 := tk.op2.filter (fun c => !(c == '[' || c == ']')) }
      else if pyStartswith '#' tk.op2 then
        { tk with op2Type := str "imm", op2 := tk.op2.filter (fun c => !(c == '#')) }
      else if registers.contains (pyLower tk.op2) then { tk with op2Type := str "reg" }
      else { tk with op2Type := str "label", label := pyLower tk.label }
    else tk
  let tk := { tk with mnemonic := pyLower tk.mnemonic }
  Except.ok tk

/-- Source `Assembler.parse`: rebuilds the per-line token fields, leaving every
other assembler field untouched. -/
def parse (st : AsmState) (line : Str) : M AsmState := do
  let tk ← tokenize line
  Except.ok { st with
    label := tk.label, mnemonic := tk.mnemonic, op1 := tk.op1, op1Type := tk.op1Type,
    op2 := tk.op2, op2Type := tk.op2Type, comment := tk.comment }

/-- Source `Assembler.process`: dispatches `f"_{mnemonic}".replace("_.",
"directive_")` through `getattr`; the names with a matching handler are the
16 mnemonics and the two directives, anything else is the fatal
unrecognized-mnemonic error. -/
def process (st : AsmState) : M AsmState :=
  if st.mnemonic = [] ∧ ¬ (¬ st.op1 = [] ∧ ¬ st.op2 = []) then Except.ok st
  else if st.mnemonic = str "mv" then _mv st
  else if st.mnemonic = str "io" then _io st
  else if st.mnemonic = str "push" then _push st
  else if st.mnemonic = str "pop" then _pop st
  else if st.mnemonic = str "add" then _add st
  else if st.mnemonic = str "sub" then _sub st
  else if st.mnemonic = str "inc" then _inc st
  else if st.mnemonic = str "dec" then _dec st
  else if st.mnemonic = str "and" then _and st
  else if st.mnemonic = str "or" then _or st
  else if st.mnemonic = str "not" then _not st
  else if st.mnemonic = str "cmp" then _cmp st
  else if st.mnemonic = str "call" then _call st
  else if st.mnemonic = str "jnz" then _jnz st
  else if st.mnemonic = str "ret" then _ret st
  else if st.mnemonic = str "hlt" then _hlt st
  else if st.mnemonic = str ".data" then directive_data st
  else if st.mnemonic = str ".string" then directive_string st
  else Except.error AsmErr.unrecognizedMnemonic

/-- Source `Assembler._assemble_line`: parse, process, bump the line counter. -/
def _assemble_line (st : AsmState) (line : Str) : M AsmState := do
  let st ← parse st line
  let st ← process st
  Except.ok { st with lineNumber := st.lineNumber + 1 }

def assembleLines : AsmState → List Str → M AsmState
  | st, [] => Except.ok st
  | st, l :: ls => do
    let st ← _assemble_line st l
    assembleLines st ls

/-- Source `Assembler.assemble`: `pass_number` is a class attribute initialized to
1, so `hasattr(self, 'pass_number')` is always true and the counter is simply
incremented on every call — the first traversal already runs with
`pass_number == 2`. -/
def assemble (st : AsmState) (lines : List Str) : M AsmState :=
  assembleLines { st with passNumber := st.passNumber + 1 } lines

/-- The class-attribute initial state of an `Assembler` object. -/
def initState : AsmState :=
  { lineNumber := 0, passNumber := 1, address := 0, output := [],
    label := [], mnemonic := [], op1 := [], op1Type := [], op2 := [], op2Type := [],
    comment := [], symbolTable := [] }

/-- One full run: `__init__` calls `assemble` twice on the same source. -/
def runPasses (lines : List Str) : M (AsmState × AsmState) := do
  let s1 ← assemble initState lines
  let s2 ← assemble s1 lines
  Except.ok (s1, s2)

/-! ## Basic lemmas about the `Except`-based model -/

theorem okBind {α β : Type} (a : α) (f : α → M β) : (Except.ok a >>= f) = f a := rfl

theorem errBind {α β : Type} (e : AsmErr) (f : α → M β) :
    ((Except.error e : M α) >>= f) = Except.error e := rfl

theorem exBind_ok {α β : Type} {x : M α} {f : α → M β} {b : β}
    (h : (x >>= f) = Except.ok b) : ∃ a, x = Except.ok a ∧ f a = Except.ok b := by
  cases x with
  | ok a => exact ⟨a, rfl, h⟩
  | error e => rw [errBind] at h; exact Except.noConfusion h

/-- On any pass other than 1, `pass_action` leaves the symbol table and the
location counter alone and appends the (nonempty) bytes to the output. -/
theorem pass_action_shape (st : AsmState) (size : Nat) (ob : List Nat)
    (hp : ¬ st.passNumber = 1) :
    pass_action st size ob =
      Except.ok (if ob = [] then st else { st with output := st.output ++ ob }) := by
  unfold pass_action
  by_cases hob : ob = []
  · simp [hob]
  · simp [hob, hp, okBind]

theorem toBytesS2_ofNat (d : Nat) (h : d ≤ 32767) :
    toBytesS2 (Int.ofNat d) = Except.ok [d % 256, d / 256] := by
  unfold toBytesS2
  rw [show Int.ofNat d = (d : Int) from rfl]
  rw [if_pos (by constructor <;> omega)]
  have he : Int.emod ((d : Int)) 65536 = (d : Int) :=
    Int.emod_eq_of_lt (by omega) (by omega)
  rw [he]
  simp

theorem toBytesS2_ok_ne_nil {n : Int} {bs : List Nat} (h : toBytesS2 n = Except.ok bs) :
    ¬ bs = [] := by
  unfold toBytesS2 at h
  split at h
  · injection h with h; subst h; simp
  · exact Except.noConfusion h

/-! ## Lemmas about operand-value resolution -/

theorem resolveValue_digits (st : AsmState) (op : Str) (d : Nat)
    (hdig : pyIsdigitStr op = true) (hd : digitsToNat op = d) (hnz : ¬ d = 0) :
    resolveValue st op = Except.ok (Int.ofNat d) := by
  have hz : ¬ ((d : Int) = 0) := by omega
  simp [resolveValue, to_int, hdig, hd, okBind, hz, hnz]

theorem resolveValue_digits_zero (st : AsmState) (op : Str)
    (hdig : pyIsdigitStr op = true) (hd : digitsToNat op = 0)
    (hmem : tblMem (pyLower op) st.symbolTable = false) :
    resolveValue st op = Except.error AsmErr.undefinedLabel := by
  simp [resolveValue, to_int, hdig, hd, okBind, get_label, hmem, Except.map]

theorem resolveValue_missing (st : AsmState) (op : Str)
    (hdig : pyIsdigitStr op = false) (hneg : pyStartswith '-' op = false)
    (hmem : tblMem (pyLower op) st.symbolTable = false) :
    resolveValue st op = Except.error AsmErr.undefinedLabel := by
  simp [resolveValue, to_int, hdig, hneg, okBind, get_label, hmem, Except.map]

theorem resolveValue_neg (st : AsmState) (op : Str) (n : Int)
    (hdig : pyIsdigitStr op = false) (hneg : pyStartswith '-' op = true)
    (hint : pyIntOfStr op = some n) (hnz : ¬ n = 0) :
    resolveValue st op = Except.ok n := by
  simp [resolveValue, to_int, hdig, hneg, hint, okBind, hnz]

/-- On a pass other than 1, a successful resolution followed by a successful
byte conversion makes `immediate_operand` bump the address by one and append
the bytes. -/
theorem immediate_operand_shape (st : AsmState) (hp : ¬ st.passNumber = 1)
    (ht : st.op1Type = str "imm" ∨ st.op1Type = str "label")
    {n : Int} {bs : List Nat}
    (hres : resolveValue { st with address := st.address + 1 } st.op1 = Except.ok n)
    (hb : toBytesS2 n = Except.ok bs) :
    immediate_operand st =
      Except.ok { st with address := st.address + 1, output := st.output ++ bs } := by
  have hcond : ¬ (¬ (st.op1Type = str "imm" ∨ st.op1Type = str "label") ∨
      st.passNumber = 1) := by
    intro h
    rcases h with h | h
    · exact h ht
    · exact hp h
  unfold immediate_operand
  rw [if_neg hcond]
  rw [show (do
      let st := { st with address := st.address + 1 }
      let number ← resolveValue st st.op1
      let bytes ← toBytesS2 number
      pass_action st 2 bytes : M AsmState) =
    (resolveValue { st with address := st.address + 1 } st.op1 >>= fun number =>
      toBytesS2 number >>= fun bytes =>
        pass_action { st with address := st.address + 1 } 2 bytes) from rfl]
  rw [hres, okBind, hb, okBind]
  rw [pass_action_shape { st with address := st.address + 1 } 2 bs hp]
  rw [if_neg (toBytesS2_ok_ne_nil hb)]

/-- On a pass other than 1, a failing resolution propagates its error out of
`immediate_operand`. -/
theorem immediate_operand_err (st : AsmState) (hp : ¬ st.passNumber = 1)
    (ht : st.op1Type = str "imm" ∨ st.op1Type = str "label") {e : AsmErr}
    (hres : resolveValue { st with address := st.address + 1 } st.op1 =
      Except.error e) :
    immediate_operand st = Except.error e := by
  have hcond : ¬ (¬ (st.op1Type = str "imm" ∨ st.op1Type = str "label") ∨
      st.passNumber = 1) := by
    intro h
    rcases h with h | h
    · exact h ht
    · exact hp h
  unfold immediate_operand
  rw [if_neg hcond]
  rw [show (do
      let st := { st with address := st.address + 1 }
      let number ← resolveValue st st.op1
      let bytes ← toBytesS2 number
      pass_action st 2 bytes : M AsmState) =
    (resolveValue { st with address := st.address + 1 } st.op1 >>= fun number =>
      toBytesS2 number >>= fun bytes =>
        pass_action { st with address := st.address + 1 } 2 bytes) from rfl]
  rw [hres, errBind]

/-! ## Lemmas about UTF-8 emission -/

theorem utf8Bytes_ne_nil (c : Char) : ¬ utf8Bytes c = [] := by
  intro h
  rw [show utf8Bytes c =
      (if c.toNat < 128 then [c.toNat]
       else if c.toNat < 2048 then [192 + c.toNat / 64, 128 + c.toNat % 64]
       else if c.toNat < 65536 then
         [224 + c.toNat / 4096, 128 + c.toNat / 64 % 64, 128 + c.toNat % 64]
       else [240 + c.toNat / 262144, 128 + c.toNat / 4096 % 64, 128 + c.toNat / 64 % 64,
         128 + c.toNat % 64]) from rfl] at h
  split at h
  · exact List.noConfusion h
  · split at h
    · exact List.noConfusion h
    · split at h
      · exact List.noConfusion h
      · exact List.noConfusion h

theorem utf8Bytes_ascii (c : Char) (h : c.toNat < 128) : utf8Bytes c = [c.toNat] := by
  unfold utf8Bytes
  rw [if_pos h]

theorem utf8Encode_ne_nil (s : Str) (h : ¬ s = []) : ¬ utf8Encode s = [] := by
  cases s with
  | nil => exact absurd rfl h
  | cons c t =>
    intro hh
    rw [show utf8Encode (c :: t) = utf8Bytes c ++ utf8Encode t from rfl] at hh
    exact utf8Bytes_ne_nil c (List.append_eq_nil.mp hh).1

theorem utf8Encode_length_ascii (s : Str) (h : ∀ c ∈ s, c.toNat < 128) :
    (utf8Encode s).length = s.length := by
  induction s with
  | nil => rfl
  | cons c t ih =>
    have hc : c.toNat < 128 := h c (by simp)
    have ht : ∀ x ∈ t, x.toNat < 128 := fun x hx => h x (by simp [hx])
    rw [show utf8Encode (c :: t) = utf8Bytes c ++ utf8Encode t from rfl]
    rw [utf8Bytes_ascii c hc]
    simp [ih ht]

theorem padNul_ne_nil (s : Str) : ¬ padNul s = [] := by
  unfold padNul
  split <;> simp

theorem padNul_length_even (s : Str) : (padNul s).length % 2 = 0 := by
  unfold padNul
  split <;> simp <;> omega

/-! ## Preservation of the symbol table and pass counter

On any pass other than 1 the `pass_number == 1` branch of `pass_action` is
skipped, so no pipeline stage can touch the symbol table or the pass
counter.  `TablePres f` captures that for a stage `f`. -/

def TablePres (f : AsmState → M AsmState) : Prop :=
  ∀ st st', ¬ st.passNumber = 1 → f st = Except.ok st' →
    st'.symbolTable = st.symbolTable ∧ st'.passNumber = st.passNumber

theorem tp_pass_action (size : Nat) (ob : List Nat) :
    TablePres (fun st => pass_action st size ob) := by
  intro st st' hp h
  replace h : pass_action st size ob = Except.ok st' := h
  rw [pass_action_shape st size ob hp] at h
  injection h with h
  subst h
  refine ⟨?_, ?_⟩ <;> (split <;> rfl)

theorem tp_immediate_operand : TablePres immediate_operand := by
  intro st st' hp h
  unfold immediate_operand at h
  split at h
  · injection h with h; subst h; exact ⟨rfl, rfl⟩
  · obtain ⟨n, hn, h⟩ := exBind_ok h
    obtain ⟨bs, hbs, h⟩ := exBind_ok h
    exact tp_pass_action 2 bs { st with address := st.address + 1 } st' hp h

theorem tp_memStep (t o : Str) : TablePres (fun st => memStep st t o) := by
  intro st st' hp h
  replace h : memStep st t o = Except.ok st' := h
  unfold memStep at h
  split at h
  · injection h with h; subst h; exact ⟨rfl, rfl⟩
  · obtain ⟨v, hv, h⟩ := exBind_ok h
    exact Except.noConfusion h

theorem tp_memory_address : TablePres memory_address := by
  intro st st' hp h
  unfold memory_address at h
  split at h
  · injection h with h; subst h; exact ⟨rfl, rfl⟩
  · obtain ⟨s1, h1, h2⟩ := exBind_ok h
    obtain ⟨t1, p1⟩ :=
      tp_memStep _ _ { st with address := st.address + 1 } s1 hp h1
    have hp1 : ¬ s1.passNumber = 1 := by rw [p1]; exact hp
    obtain ⟨t2, p2⟩ := tp_memStep _ _ s1 st' hp1 h2
    exact ⟨t2.trans t1, p2.trans p1⟩

theorem tp_opt (f : AsmState → M AsmState) (hf : TablePres f) (b : Bool) :
    TablePres (fun st => if b then f st else Except.ok st) := by
  intro st st' hp h
  replace h : (if b then f st else Except.ok st) = Except.ok st' := h
  cases b with
  | false =>
    rw [if_neg Bool.false_ne_true] at h
    injection h with h; subst h; exact ⟨rfl, rfl⟩
  | true =>
    rw [if_pos rfl] at h
    exact hf st st' hp h

theorem tp_instr2 (opc : Nat) : TablePres (instr2 opc) := by
  intro st st' hp h
  unfold instr2 at h
  obtain ⟨u, hu, h⟩ := exBind_ok h
  obtain ⟨w, hw, h⟩ := exBind_ok h
  obtain ⟨bs, hbs, h⟩ := exBind_ok h
  obtain ⟨s1, h1, h⟩ := exBind_ok h
  obtain ⟨s2, h2, h⟩ := exBind_ok h
  obtain ⟨t1, p1⟩ := tp_pass_action 2 bs _ _ hp h1
  have hp1 : ¬ s1.passNumber = 1 := by rw [p1]; exact hp
  obtain ⟨t2, p2⟩ := tp_immediate_operand _ _ hp1 h2
  have hp2 : ¬ s2.passNumber = 1 := by rw [p2]; exact hp1
  obtain ⟨t3, p3⟩ := tp_memory_address _ _ hp2 h
  exact ⟨(t3.trans t2).trans t1, (p3.trans p2).trans p1⟩

theorem tp_instr1 (opc : Nat) (imm mem : Bool) : TablePres (instr1 opc imm mem) := by
  intro st st' hp h
  unfold instr1 at h
  obtain ⟨u, hu, h⟩ := exBind_ok h
  obtain ⟨w, hw, h⟩ := exBind_ok h
  obtain ⟨bs, hbs, h⟩ := exBind_ok h
  obtain ⟨s1, h1, h⟩ := exBind_ok h
  obtain ⟨s2, h2, h⟩ := exBind_ok h
  obtain ⟨t1, p1⟩ := tp_pass_action 2 bs st s1 hp h1
  have hp1 : ¬ s1.passNumber = 1 := by rw [p1]; exact hp
  obtain ⟨t2, p2⟩ := tp_opt immediate_operand tp_immediate_operand imm s1 s2 hp1 h2
  have hp2 : ¬ s2.passNumber = 1 := by rw [p2]; exact hp1
  obtain ⟨t3, p3⟩ := tp_opt memory_address tp_memory_address mem s2 st' hp2 h
  exact ⟨(t3.trans t2).trans t1, (p3.trans p2).trans p1⟩

theorem tp_io : TablePres _io := by
  intro st st' hp h
  unfold _io at h
  obtain ⟨u, hu, h⟩ := exBind_ok h
  obtain ⟨u2, hu2, h⟩ := exBind_ok h
  obtain ⟨w, hw, h⟩ := exBind_ok h
  obtain ⟨w2, hw2, h⟩ := exBind_ok h
  obtain ⟨bs, hbs, h⟩ := exBind_ok h
  obtain ⟨s1, h1, h⟩ := exBind_ok h
  obtain ⟨s2, h2, h⟩ := exBind_ok h
  obtain ⟨t1, p1⟩ := tp_pass_action 2 bs _ _ hp h1
  have hp1 : ¬ s1.passNumber = 1 := by rw [p1]; exact hp
  obtain ⟨t2, p2⟩ := tp_immediate_operand _ _ hp1 h2
  have hp2 : ¬ s2.passNumber = 1 := by rw [p2]; exact hp1
  obtain ⟨t3, p3⟩ := tp_memory_address _ _ hp2 h
  exact ⟨(t3.trans t2).trans t1, (p3.trans p2).trans p1⟩

theorem tp_ret : TablePres _ret := by
  intro st st' hp h
  unfold _ret at h
  obtain ⟨u, hu, h⟩ := exBind_ok h
  exact tp_pass_action 2 [0x00, 0xE0] _ _ hp h

theorem tp_hlt : TablePres _hlt := by
  intro st st' hp h
  unfold _hlt at h
  obtain ⟨u, hu, h⟩ := exBind_ok h
  exact tp_pass_action 2 [0x00, 0xF0] _ _ hp h

theorem tp_directive_data : TablePres directive_data := by
  intro st st' hp h
  unfold directive_data at h
  split at h
  · exact Except.noConfusion h
  · obtain ⟨u, hu, h⟩ := exBind_ok h
    cases hcase : pyIntOfStr st.op1 with
    | some d =>
      rw [hcase] at h
      obtain ⟨bs, hbs, h⟩ := exBind_ok h
      exact tp_pass_action 2 bs _ _ hp h
    | none => rw [hcase] at h; exact Except.noConfusion h

theorem tp_directive_string : TablePres directive_string := by
  intro st st' hp h
  unfold directive_string at h
  split at h
  · exact Except.noConfusion h
  · obtain ⟨u, hu, h⟩ := exBind_ok h
    exact tp_pass_action _ _ _ _ hp h

theorem tp_process : TablePres process := by
  intro st st' hp h
  unfold process at h
  by_cases c1 : st.mnemonic = [] ∧ ¬ (¬ st.op1 = [] ∧ ¬ st.op2 = [])
  · rw [if_pos c1] at h; injection h with h; subst h; exact ⟨rfl, rfl⟩
  rw [if_neg c1] at h
  by_cases c2 : st.mnemonic = str "mv"
  · rw [if_pos c2] at h; exact tp_instr2 0 st st' hp h
  rw [if_neg c2] at h
  by_cases c3 : st.mnemonic = str "io"
  · rw [if_pos c3] at h; exact tp_io st st' hp h
  rw [if_neg c3] at h
  by_cases c4 : st.mnemonic = str "push"
  · rw [if_pos c4] at h; exact tp_instr1 2 true true st st' hp h
  rw [if_neg c4] at h
  by_cases c5 : st.mnemonic = str "pop"
  · rw [if_pos c5] at h; exact tp_instr1 3 false true st st' hp h
  rw [if_neg c5] at h
  by_cases c6 : st.mnemonic = str "add"
  · rw [if_pos c6] at h; exact tp_instr2 4 st st' hp h
  rw [if_neg c6] at h
  by_cases c7 : st.mnemonic = str "sub"
  · rw [if_pos c7] at h; exact tp_instr2 5 st st' hp h
  rw [if_neg c7] at h
  by_cases c8 : st.mnemonic = str "inc"
  · rw [if_pos c8] at h; exact tp_instr1 6 false false st st' hp h
  rw [if_neg c8] at h
  by_cases c9 : st.mnemonic = str "dec"
  · rw [if_pos c9] at h; exact tp_instr1 7 false false st st' hp h
  rw [if_neg c9] at h
  by_cases c10 : st.mnemonic = str "and"
  · rw [if_pos c10] at h; exact tp_instr2 8 st st' hp h
  rw [if_neg c10] at h
  by_cases c11 : st.mnemonic = str "or"
  · rw [if_pos c11] at h; exact tp_instr2 9 st st' hp h
  rw [if_neg c11] at h
  by_cases c12 : st.mnemonic = str "not"
  · rw [if_pos c12] at h; exact tp_instr2 10 st st' hp h
  rw [if_neg c12] at h
  by_cases c13 : st.mnemonic = str "cmp"
  · rw [if_pos c13] at h; exact tp_instr2 11 st st' hp h
  rw [if_neg c13] at h
  by_cases c14 : st.mnemonic = str "call"
  · rw [if_pos c14] at h; exact tp_instr1 12 true false st st' hp h
  rw [if_neg c14] at h
  by_cases c15 : st.mnemonic = str "jnz"
  · rw [if_pos c15] at h; exact tp_instr1 13 true false st st' hp h
  rw [if_neg c15] at h
  by_cases c16 : st.mnemonic = str "ret"
  · rw [if_pos c16] at h; exact tp_ret st st' hp h
  rw [if_neg c16] at h
  by_cases c17 : st.mnemonic = str "hlt"
  · rw [if_pos c17] at h; exact tp_hlt st st' hp h
  rw [if_neg c17] at h
  by_cases c18 : st.mnemonic = str ".data"
  · rw [if_pos c18] at h; exact tp_directive_data st st' hp h
  rw [if_neg c18] at h
  by_cases c19 : st.mnemonic = str ".string"
  · rw [if_pos c19] at h; exact tp_directive_string st st' hp h
  rw [if_neg c19] at h
  exact Except.noConfusion h

theorem tp_parse (line : Str) : TablePres (fun st => parse st line) := by
  intro st st' hp h
  replace h : parse st line = Except.ok st' := h
  unfold parse at h
  obtain ⟨tk, htk, h⟩ := exBind_ok h
  injection h with h
  subst h
  exact ⟨rfl, rfl⟩

theorem tp_assemble_line (line : Str) : TablePres (fun st => _assemble_line st line) := by
  intro st st' hp h
  replace h : _assemble_line st line = Except.ok st' := h
  unfold _assemble_line at h
  obtain ⟨s1, h1, h⟩ := exBind_ok h
  obtain ⟨s2, h2, h⟩ := exBind_ok h
  obtain ⟨t1, p1⟩ := tp_parse line st s1 hp h1
  have hp1 : ¬ s1.passNumber = 1 := by rw [p1]; exact hp
  obtain ⟨t2, p2⟩ := tp_process s1 s2 hp1 h2
  injection h with h
  subst h
  exact ⟨t2.trans t1, p2.trans p1⟩

theorem tp_assembleLines (lines : List Str) :
    TablePres (fun st => assembleLines st lines) := by
  induction lines with
  | nil =>
    intro st st' hp h
    replace h : Except.ok st = Except.ok st' := h
    injection h with h
    subst h
    exact ⟨rfl, rfl⟩
  | cons l ls ih =>
    intro st st' hp h
    replace h : (_assemble_line st l >>= fun st => assembleLines st ls) =
      Except.ok st' := h
    obtain ⟨s1, h1, h2⟩ := exBind_ok h
    obtain ⟨t1, p1⟩ := tp_assemble_line l st s1 hp h1
    have hp1 : ¬ s1.passNumber = 1 := by rw [p1]; exact hp
    obtain ⟨t2, p2⟩ := ih s1 st' hp1 h2
    exact ⟨t2.trans t1, p2.trans p1⟩

/-! ## The claims -/

/-- Claim C1 (code bug).  The claim states that the output image is appended
to only during pass 2 and that pass 1 emits no bytes.  In the source the
`self.output += output_byte` append of `pass_action` sits outside the
`if self.pass_number == 1:` block, so bytes are appended on every pass: after
the first of the two `assemble` calls on the one-line program `hlt` the
output already holds the opcode bytes `b"\x00\xF0"`, and even a genuine
pass-1 invocation of `pass_action` (the second conjunct: `initState` has
`passNumber = 1`) both advances the address and appends the bytes. -/
theorem C1_thm :
    (assemble initState [str "hlt"]).map AsmState.output = Except.ok [0x00, 0xF0] ∧
    pass_action initState 2 [0x00, 0xF0] =
      Except.ok { initState with address := 1, output := [0x00, 0xF0] } :=
  ⟨rfl, rfl⟩

/-- Claim C2 (code bug).  The claim states that the final location counter
after pass 1 equals the final location counter after pass 2.  `address` is
never reset between the two `assemble` calls, and the trailing-word
increments of `immediate_operand` run on both calls, so on the one-line
program `jnz #5` the address is 1 after the first pass and 2 after the
second. -/
theorem C2_thm :
    (runPasses [str "jnz #5"]).map (fun p => (p.1.address, p.2.address)) =
      Except.ok (1, 2) ∧ ¬ (1 : Nat) = 2 :=
  ⟨rfl, by decide⟩

/-- Claim C3 (code bug).  The claim states that a duplicate label is a fatal
error and that labels are inserted during pass 1.  Because `pass_number` is a
class attribute preset to 1, the `hasattr` guard in `assemble` is always
true, the counter starts at 2, and the `pass_number == 1` branch of
`pass_action` (the only caller of `add_label`) never runs: the program
`foo: .data 1` / `foo: .data 2` assembles without any error, the symbol
table stays empty on both passes, and output is produced. -/
theorem C3_thm :
    (runPasses [str "foo: .data 1", str "foo: .data 2"]).map
        (fun p => (p.1.symbolTable, p.2.symbolTable, p.2.output)) =
      Except.ok ([], [], [1, 0, 2, 0, 1, 0, 2, 0]) :=
  rfl

/-- Claim C4, counterexample.  The claim places the operand-1 field in bits
11–8 and says a register operand encodes its index there.  For an immediate
operand-1 of a one-operand mnemonic (opcode 13, as in `jnz #5`) the encoder
returns `0xD0E0 = 53472`: the `0xE` marker sits in bits 7–4 while bits 11–8
hold 0, not `0xE`; and a register operand-1 of a one-operand mnemonic is
rejected as an invalid operand instead of contributing its index, because
the `case "reg":` arm matches the tuple subject against a bare string. -/
theorem C4_counterexample :
    encode_operand_types { initState with op1Type := str "imm", op1 := str "5" } 13 1 =
      Except.ok 53472 ∧
    53472 / 256 % 16 = 0 ∧ ¬ 53472 / 256 % 16 = 14 ∧
    encode_operand_types { initState with op1Type := str "reg", op1 := str "a" } 2 1 =
      Except.error AsmErr.invalidOperand :=
  ⟨rfl, by decide, by decide, rfl⟩

/-- Claim C4, amended.  For one-operand mnemonics the operand-1 field
occupies bits 7–4 of the opcode word: Immediate encodes as `0xE`,
MemoryAddress and LabelRef as `0xF`, Empty as `0x0`, while a Register
operand-1 is a fatal invalid-operand error (the source's register arm never
fires); for two-operand mnemonics the operand-1 kind and text contribute
nothing at all to the opcode word. -/
theorem C4_amended (st : AsmState) (opc : Nat) :
    encode_operand_types { st with op1Type := str "imm" } opc 1 =
      Except.ok (opc <<< 12 + 224) ∧
    encode_operand_types { st with op1Type := str "mem_adr" } opc 1 =
      Except.ok (opc <<< 12 + 240) ∧
    encode_operand_types { st with op1Type := str "label" } opc 1 =
      Except.ok (opc <<< 12 + 240) ∧
    encode_operand_types { st with op1Type := [] } opc 1 = Except.ok (opc <<< 12) ∧
    encode_operand_types { st with op1Type := str "reg" } opc 1 =
      Except.error AsmErr.invalidOperand ∧
    ∀ t u, encode_operand_types { st with op1Type := t, op1 := u } opc 2 =
      encode_operand_types st opc 2 :=
  ⟨rfl, rfl, rfl, rfl, rfl, fun _ _ => rfl⟩

/-- Claim C5 (code bug).  The spec's test vector says `mv a, #5` assembles
to the opcode word `0x00E0`.  In the source, the operand-2 match of
`encode_operand_types` has no arm for an immediate, so the tuple
`("imm", 2)` falls into the `case _, 2` arm: assembling the line is a fatal
invalid-operand error and no opcode word is produced. -/
theorem C5_thm :
    assemble initState [str "mv a, #5"] = Except.error AsmErr.invalidOperand :=
  rfl

/-- Claim C6 (code bug).  The claim says a MemoryAddress operand makes pass 2
append one little-endian unsigned word holding the hex-parsed address.  In
`memory_address` the source computes `int(number, 16)` after `number` is
already an `int`; calling `int` with an explicit base on a non-string raises
`TypeError`, so every memory-address operand aborts the run instead of
emitting a trailing word: `push [10]` fails with that `TypeError`. -/
theorem C6_thm :
    assemble initState [str "push [10]"] = Except.error AsmErr.typeError :=
  rfl

/-- State used by the C7 counterexample: pass 2, immediate operand `0`. -/
def c7cex : AsmState :=
  { initState with passNumber := 2, op1Type := str "imm", op1 := str "0" }

/-- Claim C7, counterexample.  The claim says any token that parses as a
base-10 integer is emitted directly.  The token `0` parses as the integer 0,
yet resolution does not emit a zero word: `to_int` returns the falsy 0, the
`or` falls through to the symbol-table lookup of `"0"`, and the run aborts
with the fatal undefined-label error. -/
theorem C7_counterexample :
    immediate_operand c7cex = Except.error AsmErr.undefinedLabel ∧
    ¬ immediate_operand c7cex =
        Except.ok { c7cex with
          address := c7cex.address + 1
          output := c7cex.output ++ [0, 0] } := by
  have h0 : immediate_operand c7cex = Except.error AsmErr.undefinedLabel := rfl
  exact ⟨h0, fun h => Except.noConfusion (h0.symm.trans h)⟩

/-- Claim C7, amended.  When `immediate_operand` resolves an Immediate or
LabelRef operand on a pass other than 1: an all-digit token with nonzero
value `d ≤ 32767` is emitted directly as a little-endian word; an all-digit
token with value 0 falls through to symbol lookup (undefined-label error when
absent); a token that neither is all digits nor starts with `-` is looked up
in the symbol table, with the fatal undefined-label error when absent; and a
`-`-prefixed token that parses to a nonzero integer whose byte conversion
succeeds is emitted directly. -/
theorem C7_amended (st : AsmState) (hp : ¬ st.passNumber = 1)
    (ht : st.op1Type = str "imm" ∨ st.op1Type = str "label") :
    (∀ d : Nat, pyIsdigitStr st.op1 = true → digitsToNat st.op1 = d → ¬ d = 0 →
      d ≤ 32767 →
      immediate_operand st =
        Except.ok { st with
          address := st.address + 1
          output := st.output ++ [d % 256, d / 256] }) ∧
    (pyIsdigitStr st.op1 = true → digitsToNat st.op1 = 0 →
      tblMem (pyLower st.op1) st.symbolTable = false →
      immediate_operand st = Except.error AsmErr.undefinedLabel) ∧
    (pyIsdigitStr st.op1 = false → pyStartswith '-' st.op1 = false →
      tblMem (pyLower st.op1) st.symbolTable = false →
      immediate_operand st = Except.error AsmErr.undefinedLabel) ∧
    (∀ (n : Int) (bs : List Nat), pyIsdigitStr st.op1 = false →
      pyStartswith '-' st.op1 = true → pyIntOfStr st.op1 = some n → ¬ n = 0 →
      toBytesS2 n = Except.ok bs →
      immediate_operand st =
        Except.ok { st with
          address := st.address + 1
          output := st.output ++ bs }) := by
  refine ⟨?_, ?_, ?_, ?_⟩
  · intro d hdig hd hnz hle
    exact immediate_operand_shape st hp ht
      (resolveValue_digits _ _ d hdig hd hnz) (toBytesS2_ofNat d hle)
  · intro hdig hd hmem
    exact immediate_operand_err st hp ht
      (resolveValue_digits_zero _ _ hdig hd hmem)
  · intro hdig hneg hmem
    exact immediate_operand_err st hp ht
      (resolveValue_missing _ _ hdig hneg hmem)
  · intro n bs hdig hneg hint hnz hb
    exact immediate_operand_shape st hp ht
      (resolveValue_neg _ _ n hdig hneg hint hnz) hb

/-- State used by the C7 witness: pass 2, immediate operand `5`. -/
def c7wit : AsmState :=
  { initState with passNumber := 2, op1Type := str "imm", op1 := str "5" }

/-- Witness for C7: evaluating the amended claim's first case at the
concrete immediate token `5`. -/
theorem C7_witness :
    immediate_operand c7wit =
      Except.ok { c7wit with
        address := c7wit.address + 1
        output := c7wit.output ++ [5 % 256, 5 / 256] } :=
  (C7_amended c7wit (by decide) (Or.inl rfl)).1 5 rfl rfl (by decide) (by decide)

/-- Emission rule exactly as claim C8 words it: strip ONE layer of
surrounding quote characters, then pad with NULs by parity and encode. -/
def specStripOneLayer (s : Str) : Str :=
  let s1 :=
    match s with
    | c :: rest => if c = '"' ∨ c = '\'' then rest else c :: rest
    | [] => []
  match s1.reverse with
  | c :: rest => if c = '"' ∨ c = '\'' then rest.reverse else s1
  | [] => s1

/-- Byte emission predicted by claim C8's wording. -/
def specStringBytes (op1 : Str) : List Nat := utf8Encode (padNul (specStripOneLayer op1))

/-- State used by the C8 counterexample: a `.string` operand wrapped in two
layers of double quotes. -/
def c8cex : AsmState :=
  { initState with passNumber := 2, label := str "s", op1 := str "\"\"ab\"\"" }

/-- Claim C8, counterexample.  On the operand `""ab""` the claim's
one-layer strip leaves `"ab"` (4 characters, even, two NULs: bytes
`34,97,98,34,0,0`), but `str.strip('"')` removes every surrounding quote, so
the code emits `ab` plus two NULs: bytes `97,98,0,0`. -/
theorem C8_counterexample :
    (directive_string c8cex).map AsmState.output = Except.ok [97, 98, 0, 0] ∧
    specStringBytes (str "\"\"ab\"\"") = [34, 97, 98, 34, 0, 0] ∧
    ¬ ([97, 98, 0, 0] : List Nat) = [34, 97, 98, 34, 0, 0] :=
  ⟨rfl, rfl, by decide⟩

/-- Claim C8, amended.  For every `.string` directive (labelled, one
operand) on a pass other than 1: the assembler strips ALL leading and
trailing `"` characters and then all `'` characters from the operand,
appends one NUL if the stripped character length is odd and two if it is
even, and appends the UTF-8 bytes of the result to the output; the padded
character count is always even, and the emitted byte count is even whenever
every stripped character is a single UTF-8 byte. -/
theorem C8_amended (st : AsmState) (hl : ¬ st.label = []) (h1 : ¬ st.op1 = [])
    (h2 : st.op2 = []) (hp : ¬ st.passNumber = 1) :
    directive_string st =
      Except.ok { st with output := st.output ++ utf8Encode (padNul (stripQuotes st.op1)) } ∧
    (padNul (stripQuotes st.op1)).length % 2 = 0 ∧
    ((∀ c ∈ stripQuotes st.op1, c.toNat < 128) →
      (utf8Encode (padNul (stripQuotes st.op1))).length % 2 = 0) := by
  refine ⟨?_, padNul_length_even _, ?_⟩
  · have hv : verify_ops (truthy st.op1 && !truthy st.op2) = Except.ok () := by
      cases hop : st.op1 with
      | nil => exact absurd hop h1
      | cons c t => rw [h2]; rfl
    unfold directive_string
    rw [if_neg hl]
    change (verify_ops (truthy st.op1 && !truthy st.op2) >>= fun _ =>
      pass_action st (utf8Encode (padNul (stripQuotes st.op1))).length
        (utf8Encode (padNul (stripQuotes st.op1)))) = _
    rw [hv, okBind]
    rw [pass_action_shape st _ _ hp]
    rw [if_neg (utf8Encode_ne_nil _ (padNul_ne_nil _))]
  · intro hascii
    have hall : ∀ c ∈ padNul (stripQuotes st.op1), c.toNat < 128 := by
      intro c hc
      unfold padNul at hc
      by_cases he : ¬ (stripQuotes st.op1).length % 2 = 0
      · rw [if_pos he] at hc
        rcases List.mem_append.mp hc with hc | hc
        · exact hascii c hc
        · rw [List.mem_singleton.mp hc]; decide
      · rw [if_neg he] at hc
        rcases List.mem_append.mp hc with hc | hc
        · exact hascii c hc
        · have hc0 : c = Char.ofNat 0 := by
            rcases List.mem_cons.mp hc with h | h
            · exact h
            · exact List.mem_singleton.mp h
          rw [hc0]; decide
    rw [utf8Encode_length_ascii _ hall]
    exact padNul_length_even _

/-- State used by the C8 witness: `.string "AB"` on pass 2. -/
def c8wit : AsmState :=
  { initState with passNumber := 2, label := str "msg", op1 := str "\"AB\"" }

/-- Witness for C8: the claim's own example `.string "AB"` emits the four
bytes `AB\0\0`. -/
theorem C8_witness :
    directive_string c8wit =
      Except.ok { c8wit with
        output := c8wit.output ++ utf8Encode (padNul (stripQuotes c8wit.op1)) } ∧
    (padNul (stripQuotes c8wit.op1)).length % 2 = 0 ∧
    utf8Encode (padNul (stripQuotes c8wit.op1)) = [65, 66, 0, 0] := by
  have h := C8_amended c8wit (by decide) (by decide) rfl (by decide)
  exact ⟨h.1, h.2.1, rfl⟩

/-- Claim C9 (confirmed).  `pass_number` is a class attribute pre-initialized
to 1, so the `hasattr` guard is always true and `assemble` increments the
counter before traversing: the first call already runs with `pass_number = 2`
(second conjunct, definitional), the second with 3, the `pass_number == 1`
branch of `pass_action` never executes, and the symbol table stays empty for
the entire run. -/
theorem C9_thm (lines : List Str) (s1 s2 : AsmState)
    (h : runPasses lines = Except.ok (s1, s2)) :
    initState.passNumber = 1 ∧
    assemble initState lines = assembleLines { initState with passNumber := 2 } lines ∧
    s1.passNumber = 2 ∧ s2.passNumber = 3 ∧
    s1.symbolTable = [] ∧ s2.symbolTable = [] := by
  replace h : (assemble initState lines >>= fun s1 =>
      assemble s1 lines >>= fun s2 => Except.ok (s1, s2)) = Except.ok (s1, s2) := h
  obtain ⟨a, ha, h⟩ := exBind_ok h
  obtain ⟨b, hb, h⟩ := exBind_ok h
  injection h with h
  injection h with h1 h2
  rw [h1] at ha
  rw [h1, h2] at hb
  replace ha : assembleLines { initState with passNumber := 2 } lines =
    Except.ok s1 := ha
  obtain ⟨t1, p1⟩ := tp_assembleLines lines { initState with passNumber := 2 } s1
    (by decide) ha
  have p1' : s1.passNumber = 2 := p1
  replace hb : assembleLines { s1 with passNumber := s1.passNumber + 1 } lines =
    Except.ok s2 := hb
  have hne : ¬ ({ s1 with passNumber := s1.passNumber + 1 } : AsmState).passNumber = 1 := by
    have : ({ s1 with passNumber := s1.passNumber + 1 } : AsmState).passNumber =
      s1.passNumber + 1 := rfl
    rw [this, p1']
    decide
  obtain ⟨t2, p2⟩ := tp_assembleLines lines { s1 with passNumber := s1.passNumber + 1 } s2
    hne hb
  have p2' : s2.passNumber = s1.passNumber + 1 := p2
  have t1' : s1.symbolTable = [] := t1
  refine ⟨rfl, rfl, p1', ?_, t1', ?_⟩
  · rw [p2', p1']
  · exact t2.trans t1'

/-- First-pass result state of the run on the one-line program `hlt`. -/
def c9s1 : AsmState :=
  { lineNumber := 1, passNumber := 2, address := 0, output := [0x00, 0xF0],
    label := [], mnemonic := str "hlt", op1 := [], op1Type := [], op2 := [],
    op2Type := [], comment := [], symbolTable := [] }

/-- Second-pass result state of the run on the one-line program `hlt`. -/
def c9s2 : AsmState :=
  { c9s1 with lineNumber := 2, passNumber := 3, output := [0x00, 0xF0, 0x00, 0xF0] }

/-- Witness for C9: the full run on the program `hlt`. -/
theorem C9_witness :
    runPasses [str "hlt"] = Except.ok (c9s1, c9s2) ∧
    (c9s1.passNumber = 2 ∧ c9s2.passNumber = 3 ∧
      c9s1.symbolTable = [] ∧ c9s2.symbolTable = []) := by
  have h : runPasses [str "hlt"] = Except.ok (c9s1, c9s2) := rfl
  have h2 := C9_thm [str "hlt"] c9s1 c9s2 h
  exact ⟨h, h2.2.2⟩

/-- Claim C10 (confirmed).  For an Immediate operand whose token is exactly
`0`, pass-2 resolution does not emit a zero word: `to_int` returns the falsy
integer 0, the `or` falls through to `get_label("0")`, and when `"0"` is not
in the symbol table (it never is in a real run, where the table stays empty)
the run aborts with the fatal undefined-label error. -/
theorem C10_thm (st : AsmState) (h : tblMem (str "0") st.symbolTable = false) :
    immediate_operand { st with passNumber := 2, op1Type := str "imm", op1 := str "0" } =
      Except.error AsmErr.undefinedLabel := by
  apply immediate_operand_err _ (show ¬ (2 : Nat) = 1 by decide) (Or.inl rfl)
  exact resolveValue_digits_zero _ _ rfl rfl h

/-- Witness for C10: the empty symbol table of a fresh assembler. -/
theorem C10_witness :
    immediate_operand { initState with
      passNumber := 2
      op1Type := str "imm"
      op1 := str "0" } = Except.error AsmErr.undefinedLabel :=
  C10_thm initState rfl

end Llama16
